import Mathlib

/-!
Shallow embedding of the AMQ-SRS Trainer.  The repository holds two source
files: `src/src/App.jsx` (the current app) and `src/unnamed/part_000` (an
earlier single-file iteration kept in the repository).  Pure logic is
translated function-by-function; React state updates become explicit state
passing; remote services (fetch) become oracle functions passed as
arguments; JS numbers are modelled as `Int`/`Nat` (milliseconds) and, for
the ease-factor arithmetic of the four-grade scheduler, as `ℚ` (every
quantity the theorems inspect there is integer-valued, hence exact in IEEE
doubles, so the idealisation is harmless for those statements).
-/

namespace App

/-- Schedule state written per card id by `sm2Schedule` in `src/src/App.jsx`
(`{interval, reps, attempts, successes, due}`); times in milliseconds. -/
structure SrsState where
  interval : Int
  reps : Nat
  attempts : Nat
  successes : Nat
  due : Int
deriving DecidableEq

/-- Field defaults used by the destructuring
`let { interval = 0, reps = 0, attempts = 0, successes = 0, due = now + 24*60*60*1000 } = card?.srs || {}`. -/
def defaultSrs (now : Int) : SrsState :=
  { interval := 0, reps := 0, attempts := 0, successes := 0, due := now + 86400000 }

/-- Embedding of `sm2Schedule(card, quality, easyDelayHours, diffAgain)` from
`src/src/App.jsx` lines 15-38.  `prior` is the card's `srs` field (`none`
models an absent/empty object, in which case every field takes its default);
`quality` is 0 = Again, 1 = Hard, 2 = Easy; `now` is the `Date.now()`
reading at call time. -/
def sm2Schedule (prior : Option SrsState) (quality : Nat) (easyDelayHours : Int)
    (diffAgain : Bool) (now : Int) : SrsState :=
  let s := prior.getD (defaultSrs now)
  let attempts := s.attempts + 1
  let successes := if 0 < quality then s.successes + 1 else s.successes
  let reps := s.reps + 1
  if quality = 2 then
    { interval := easyDelayHours * 3600000, reps := reps, attempts := attempts,
      successes := successes, due := now + easyDelayHours * 3600000 }
  else if quality = 1 then
    { interval := 0, reps := reps, attempts := attempts, successes := successes, due := now }
  else
    let i : Int := if diffAgain then 600000 else 0
    { interval := i, reps := reps, attempts := attempts, successes := successes, due := now + i }

/-- Grading a card through a whole sequence: each element of `gs` is a pair
(quality, Date.now() at that call); the output of each call is the prior
state of the next, exactly as the `srs` map entry evolves in the app. -/
def applyGrades (prior : Option SrsState) (gs : List (Nat × Int)) (eh : Int) (da : Bool) :
    Option SrsState :=
  gs.foldl (fun st g => some (sm2Schedule st g.1 eh da g.2)) prior

/-- Attempt counter of a possibly-absent state (an absent entry reads 0). -/
def attemptsOf : Option SrsState → Nat
  | none => 0
  | some s => s.attempts

/-- Success counter of a possibly-absent state (an absent entry reads 0). -/
def successesOf : Option SrsState → Nat
  | none => 0
  | some s => s.successes

/-- Repetition counter of a possibly-absent state (an absent entry reads 0). -/
def repsOf : Option SrsState → Nat
  | none => 0
  | some s => s.reps

end App

namespace Legacy

/-- Schedule state produced by the four-grade `sm2Schedule` of
`src/unnamed/part_000` (`{ef, interval, reps, due}`). -/
structure State where
  ef : ℚ
  interval : ℚ
  reps : Nat
  due : ℚ
deriving DecidableEq

/-- Destructuring defaults `let { ef = 2.5, interval = 0, reps = 0 } = card || {}`
(the prior `due` is never read, so its value here is irrelevant). -/
def defaultState : State := { ef := 5/2, interval := 0, reps := 0, due := 0 }

/-- EF update table `const qMap = [2, 3, 4, 5]` indexed by quality. -/
def qMap (quality : Nat) : ℚ := ([2, 3, 4, 5] : List ℚ).getD quality 0

/-- Embedding of `sm2Schedule(card, quality)` from `src/unnamed/part_000`
lines 25-51; quality is 0 = Again, 1 = Hard, 2 = Good, 3 = Easy; `now` is the
`Date.now()` reading; JS `Math.round` is `round`. -/
def sm2Schedule (card : Option State) (quality : Nat) (now : ℚ) : State :=
  let s := card.getD defaultState
  if quality = 0 then
    { ef := max (13/10) (s.ef - 1/5), interval := 600000, reps := 0, due := now + 600000 }
  else
    let q := qMap quality
    let ef1 := s.ef + (1/10 - (5 - q) * (2/25 + (5 - q) * (1/50)))
    let ef2 := max (13/10) (min (14/5) ef1)
    let interval : ℚ :=
      if s.reps = 0 then 86400000
      else if s.reps = 1 then 518400000
      else ((round (s.interval * ef2) : ℤ) : ℚ)
    { ef := ef2, interval := interval, reps := s.reps + 1, due := now + interval }

/-- The four-grade policy's state object carries no attempt counter at all:
JS readers of `srs.attempts` (for example the per-card statistics in
`src/src/App.jsx`, which shares the same storage key) observe `undefined`,
coerced to 0 by `srs.attempts > 0` / `srs.attempts || 0`. -/
def State.attemptCount (_ : State) : Nat := 0

/-- Likewise the four-grade policy's state carries no success counter. -/
def State.successCount (_ : State) : Nat := 0

end Legacy

/-! HTTP client with retry and backoff (`fetchJSON` — present, with identical
logic, in both source files; `src/unnamed/part_000` lines 89-114 and
`src/src/App.jsx` lines 78-102). -/

/-- One HTTP response as observed by `fetchJSON`.  `retryAfter` is the
already-parsed numeric value of the `Retry-After` header: `none` models an
absent header (JS `Number(null) = 0`, falsy), `some k` a header reading `k`
seconds.  (A non-numeric header parses to `NaN`, which is falsy exactly like
the absent case, so it is covered by `none`.) -/
structure HttpResp where
  ok : Bool
  status : Nat
  statusText : String
  retryAfter : Option Int
  bodyText : String
  bodyJson : String
deriving DecidableEq

/-- Retry cap `MAX_RETRIES = 6` (written as the literal 6 in `src/src/App.jsx`). -/
def MAX_RETRIES : Nat := 6

/-- `JITTER_MS = 120`, the exclusive upper bound of the random jitter. -/
def JITTER_MS : Nat := 120

/-- A status that `fetchJSON` retries: `status === 429 || (status >= 500 && status < 600)`. -/
def isTransient (status : Nat) : Prop := status = 429 ∨ (500 ≤ status ∧ status < 600)

instance (status : Nat) : Decidable (isTransient status) := by
  unfold isTransient; infer_instance

/-- Error text `` `${status} ${r.statusText}${text ? ` — ${text}` : ""}` ``. -/
def errorText (status : Nat) (statusText bodyText : String) : String :=
  toString status ++ " " ++ statusText ++ (if bodyText ≠ "" then " — " ++ bodyText else "")

/-- Backoff wait chosen before a retry:
`retryAfter ? Math.max(1000, retryAfter * 1000)
            : Math.min(1000 * Math.pow(2, attempt), 16000) + Math.floor(Math.random() * JITTER_MS)`.
`jit attempt` is the jitter drawn at that retry (a value in `[0, JITTER_MS)`). -/
def waitOf (jit : Nat → Nat) (attempt : Nat) (r : HttpResp) : Int :=
  if r.retryAfter.getD 0 ≠ 0 then max 1000 (r.retryAfter.getD 0 * 1000)
  else Int.ofNat (min (1000 * 2 ^ attempt) 16000 + jit attempt)

/-- Observable outcome of one `fetchJSON` call: the returned parsed body or
the thrown error (status, statusText, bodyText, rendered via `errorText`),
together with the full list of sleeps performed and the number of HTTP
requests issued. -/
structure FetchOut where
  result : Except String String
  sleeps : List Int
  requests : Nat

/-- Embedding of the `while (true)` retry loop of `fetchJSON`; `resp i` is
the response the remote returns to the request issued with `attempt = i`,
and `jit i` the jitter drawn before the retry that follows it. -/
def fetchLoop (resp : Nat → HttpResp) (jit : Nat → Nat) (attempt : Nat) : FetchOut :=
  let r := resp attempt
  if r.ok then { result := .ok r.bodyJson, sleeps := [], requests := 1 }
  else if isTransient r.status then
    if MAX_RETRIES ≤ attempt then
      { result := .error (errorText r.status r.statusText r.bodyText), sleeps := [], requests := 1 }
    else
      let rest := fetchLoop resp jit (attempt + 1)
      { result := rest.result, sleeps := waitOf jit attempt r :: rest.sleeps,
        requests := rest.requests + 1 }
  else { result := .error (errorText r.status r.statusText r.bodyText), sleeps := [], requests := 1 }
termination_by MAX_RETRIES + 1 - attempt
decreasing_by omega

/-- `fetchJSON` starts the loop with `attempt = 0`. -/
def fetchJSON (resp : Nat → HttpResp) (jit : Nat → Nat) : FetchOut :=
  fetchLoop resp jit 0

/-- Sample responder: every request gets HTTP 500 carrying the header
`Retry-After: 0`. -/
def respRA0 : Nat → HttpResp := fun _ =>
  { ok := false, status := 500, statusText := "Internal Server Error", retryAfter := some 0,
    bodyText := "", bodyJson := "" }

/-- Sample responder: every request gets HTTP 503 with no Retry-After header. -/
def resp503 : Nat → HttpResp := fun _ =>
  { ok := false, status := 503, statusText := "Service Unavailable", retryAfter := none,
    bodyText := "busy", bodyJson := "" }

/-- Sample responder: HTTP 404, a non-retryable status. -/
def resp404 : Nat → HttpResp := fun _ =>
  { ok := false, status := 404, statusText := "Not Found", retryAfter := none,
    bodyText := "", bodyJson := "" }

/-- Sample responder: HTTP 429 carrying `Retry-After: 7`. -/
def resp429 : Nat → HttpResp := fun _ =>
  { ok := false, status := 429, statusText := "Too Many Requests", retryAfter := some 7,
    bodyText := "slow down", bodyJson := "" }

/-- Sample jitter draws. -/
def zeroJit : Nat → Nat := fun _ => 0

/-- Sample jitter draw of constantly 5 ms. -/
def fiveJit : Nat → Nat := fun _ => 5

/-! Theme resolver (`getOpeningsForAniListId` and its inner `fetchByUrl`,
`src/unnamed/part_000` lines 224-289). -/

/-- One playable video object of a theme entry; `""` models an absent/falsy
`link` or `audio` field. -/
structure VideoObj where
  link : String
  audio : String
deriving DecidableEq

/-- One `animethemeentries` element. -/
structure ThemeEntry where
  videos : List VideoObj
deriving DecidableEq

/-- One `animethemes` element of a matched catalog record; `song` is the
optional `song.title`; `type` is the theme-type marker (for example "OP",
"ED"), `""` modelling an absent one. -/
structure Theme where
  type : String
  sequence : Option Int
  song : Option String
  animethemeentries : List ThemeEntry
deriving DecidableEq

/-- One matched catalog record of an AnimeThemes response. -/
structure AnimeRec where
  animethemes : List Theme
deriving DecidableEq

/-- One opening record produced by `fetchByUrl` (the `type` field it pushes
is the constant "OP" and is omitted here). -/
structure OpRec where
  number : Option Int
  songTitle : String
  artists : String
  videoUrl : String
deriving DecidableEq

/-- Video-url selection loop of `fetchByUrl`: first entry whose videos yield
a non-empty `vids[0]?.link || vids[0]?.audio || ""` wins; otherwise `""`. -/
def pickVideo : List ThemeEntry → String
  | [] => ""
  | e :: rest =>
    match e.videos with
    | [] => pickVideo rest
    | v :: _ =>
      let u := if v.link ≠ "" then v.link else v.audio
      if u ≠ "" then u else pickVideo rest

/-- The record `fetchByUrl` pushes for one retained theme. -/
def themeToOp (t : Theme) : OpRec :=
  { number := t.sequence, songTitle := t.song.getD "", artists := "",
    videoUrl := pickVideo t.animethemeentries }

/-- JS `toUpperCase`, modelled structurally (character-wise `Char.toUpper`,
which agrees with `String.toUpper` and with `toUpperCase` on these ASCII
markers). -/
def upper (s : String) : String := ⟨s.data.map Char.toUpper⟩

/-- Result extraction of `fetchByUrl`: take `data.anime`; if empty return
`[]`; otherwise read `animeArr[0]` only, keep its themes whose
`(t?.type ?? "").toUpperCase()` equals "OP", and map them to records. -/
def extractResults (animeArr : List AnimeRec) : List OpRec :=
  match animeArr with
  | [] => []
  | a :: _ => (a.animethemes.filter (fun t => upper t.type == "OP")).map themeToOp

/-- Title variants of one catalog entry; `""` models an absent (falsy) title. -/
structure Titles where
  titleRomaji : String
  titleEnglish : String
  titleNative : String
deriving DecidableEq

/-- The persisted OP cache, a JS object keyed by `String(anilistId)`. -/
def cacheGet (cache : List (String × List OpRec)) (key : String) : Option (List OpRec) :=
  (cache.find? (fun p => p.1 == key)).map (fun p => p.2)

/-- Spread-update `{ ...cache, [key]: v }` (upsert; only lookups matter). -/
def cacheSet (cache : List (String × List OpRec)) (key : String) (v : List OpRec) :
    List (String × List OpRec) :=
  (key, v) :: cache.filter (fun p => !(p.1 == key))

/-- Cache-miss lookup chain of `getOpeningsForAniListId`, lines 262-284:
`let results = []`, then one guarded `fetchByUrl` per title variant, each
later variant tried only while `results.length === 0`.  `net t` is the
response `data.anime` returned for the name-filter query on title `t`; the
second component counts the `fetchByUrl` calls (network requests) issued. -/
def resolveMiss (net : String → List AnimeRec) (ti : Titles) : List OpRec × Nat :=
  let s1 : List OpRec × Nat :=
    if ti.titleRomaji ≠ "" then (extractResults (net ti.titleRomaji), 1) else ([], 0)
  let s2 : List OpRec × Nat :=
    if s1.1 = [] ∧ ti.titleEnglish ≠ "" then (extractResults (net ti.titleEnglish), s1.2 + 1) else s1
  let s3 : List OpRec × Nat :=
    if s2.1 = [] ∧ ti.titleNative ≠ "" then (extractResults (net ti.titleNative), s2.2 + 1) else s2
  s3

/-- Observable outcome of one `getOpeningsForAniListId` call. -/
structure ResolveOut where
  result : List OpRec
  cache : List (String × List OpRec)
  requests : Nat
deriving DecidableEq

/-- Embedding of `getOpeningsForAniListId(anilistId, titles)`: a cache hit
(`if (cached) return cached` — note a present empty array is truthy in JS,
so explicitly-empty entries also hit) returns the cached list with zero
requests and the cache untouched; a miss runs the lookup chain and writes
the result (possibly empty) under `String(anilistId)` before returning. -/
def getOpeningsForAniListId (cache : List (String × List OpRec)) (net : String → List AnimeRec)
    (anilistId : Int) (ti : Titles) : ResolveOut :=
  match cacheGet cache (toString anilistId) with
  | some cached => { result := cached, cache := cache, requests := 0 }
  | none =>
      let p := resolveMiss net ti
      { result := p.1, cache := cacheSet cache (toString anilistId) p.1, requests := p.2 }

/-- Modelled from the spec (ThemeResolver Step 2 wording): the first
non-empty result list among the queried variants, paired with how many
variants were tried (every variant before and including the first hit). -/
def firstHit : List (List OpRec) → List OpRec × Nat
  | [] => ([], 0)
  | l :: ls => if l = [] then ((firstHit ls).1, (firstHit ls).2 + 1) else (l, 1)

/-- Modelled from the spec: try each non-empty title variant in priority
order (romaji, then english, then native), one query per tried variant,
stopping at the first variant with a non-empty result list. -/
def resolveSpec (net : String → List AnimeRec) (ti : Titles) : List OpRec × Nat :=
  firstHit
    ((([ti.titleRomaji, ti.titleEnglish, ti.titleNative].filter (fun t => decide (t ≠ ""))).map
      (fun t => extractResults (net t))))

/-- Sample opening theme with one playable webm link. -/
def opTheme : Theme :=
  { type := "OP", sequence := some 1, song := some "Brave Song",
    animethemeentries := [{ videos := [{ link := "https://v.animethemes.moe/a.webm", audio := "" }] }] }

/-- Sample ending theme (not an opening). -/
def edTheme : Theme :=
  { type := "ED", sequence := some 1, song := some "Ending", animethemeentries := [] }

/-- Sample matched record carrying one opening. -/
def recWithOp : AnimeRec := { animethemes := [opTheme] }

/-- Sample matched record carrying no opening-type theme. -/
def recNoOp : AnimeRec := { animethemes := [edTheme] }

/-- The record `fetchByUrl` builds from `opTheme`. -/
def op0 : OpRec := themeToOp opTheme

/-- Sample network oracle: only the name filter "B" matches (one record, one
opening); every other query returns an empty `anime` array. -/
def netB : String → List AnimeRec := fun t => if t = "B" then [recWithOp] else []

/-- Sample title variants: romaji "A", english "B", native absent. -/
def titlesAB : Titles := { titleRomaji := "A", titleEnglish := "B", titleNative := "" }

/-! Import coordinator (`buildDeckFromAniList`, `src/unnamed/part_000`
lines 297-361).  The AniList user lookup and list pagination are modelled as
oracles returning `Except` (an exhausted-retries `fetchJSON` failure is an
`.error`); per-entry theme resolution likewise.  The cooperative cancel flag
stays false for the runs modelled here, and the inter-item sleeps have no
observable effect on the state, so they are not represented. -/

/-- One catalog entry produced by `getAniListAnime`. -/
structure Media where
  anilistId : Int
  titleRomaji : String
  titleEnglish : String
  titleNative : String
  season : String
  year : Option Int
deriving DecidableEq

/-- One flashcard. -/
structure Card where
  id : String
  anilistId : Int
  titleRomaji : String
  titleEnglish : String
  titleNative : String
  season : String
  year : Option Int
  opNumber : Option Int
  songTitle : String
  artists : String
  videoUrl : String
deriving DecidableEq

/-- JS `op.number || 1`: a missing (`null`) or zero sequence becomes 1. -/
def seqOr1 (n : Option Int) : Int :=
  match n with
  | none => 1
  | some k => if k = 0 then 1 else k

/-- Card id `` `${m.anilistId}::OP${op.number || 1}` `` — a function of
(catalogId, sequenceNumber) alone. -/
def opId (anilistId : Int) (number : Option Int) : String :=
  toString anilistId ++ "::OP" ++ toString (seqOr1 number)

/-- The card object staged for one opening of one catalog entry. -/
def mkCard (m : Media) (op : OpRec) : Card :=
  { id := opId m.anilistId op.number, anilistId := m.anilistId,
    titleRomaji := m.titleRomaji, titleEnglish := m.titleEnglish,
    titleNative := m.titleNative, season := m.season, year := m.year,
    opNumber := op.number, songTitle := op.songTitle, artists := op.artists,
    videoUrl := op.videoUrl }

/-- One step of `dedupeById`'s `Map` construction: `map.set(c.id, c)` keeps
first-insertion key order and the last-written value per id. -/
def insertCard (acc : List Card) (c : Card) : List Card :=
  if acc.any (fun d => d.id == c.id) then
    acc.map (fun d => if d.id == c.id then c else d)
  else acc ++ [c]

/-- `dedupeById(arr)`: keep one card per id (last occurrence wins,
first-occurrence order), shared by both source files. -/
def dedupeById (arr : List Card) : List Card :=
  arr.foldl insertCard []

/-- Result of the inner `for (const op of ops)` staging loop of one entry:
the cards newly pushed and the updated identifier set (`idsRef.current`,
modelled as a list with membership).  `added` in the source equals
`newCards.length` (both are bumped in the same branch), so only the list is
tracked. -/
structure StageAcc where
  newCards : List Card
  ids : List String
deriving DecidableEq

/-- One step of the staging loop: compute the id; if it is not yet in the
identifier set, push the card and add the id. -/
def stageStep (m : Media) (acc : StageAcc) (op : OpRec) : StageAcc :=
  let i := opId m.anilistId op.number
  if i ∈ acc.ids then acc
  else { newCards := acc.newCards ++ [mkCard m op], ids := i :: acc.ids }

/-- Staging loop over all resolved openings of one entry. -/
def stageOps (m : Media) (ops : List OpRec) (ids0 : List String) : StageAcc :=
  ops.foldl (stageStep m) { newCards := [], ids := ids0 }

/-- Progress counters (`setProgress` state). -/
structure Progress where
  totalShows : Nat
  processedShows : Nat
  totalOps : Nat
deriving DecidableEq

/-- The mutable state threaded through the import loop: the committed card
collection (`cards`), the identifier set (`idsRef.current`) and the progress
counters. -/
structure RunState where
  cards : List Card
  ids : List String
  progress : Progress
deriving DecidableEq

/-- One iteration of the `for (const m of list)` loop, lines 309-346: on a
resolution failure the catch block only advances `processedShows`; on
success the staged cards (if any) are committed through
`dedupeById([...prev, ...newCards])` and both counters advance. -/
def processEntry (resolveOracle : Media → Except String (List OpRec)) (m : Media)
    (st : RunState) : RunState :=
  match resolveOracle m with
  | .error _ =>
      { st with progress := { st.progress with processedShows := st.progress.processedShows + 1 } }
  | .ok ops =>
      let sa := stageOps m ops st.ids
      { cards := if sa.newCards = [] then st.cards else dedupeById (st.cards ++ sa.newCards),
        ids := sa.ids,
        progress := { st.progress with
          processedShows := st.progress.processedShows + 1,
          totalOps := st.progress.totalOps + sa.newCards.length } }

/-- The whole per-entry loop over the (already truncated) catalog list. -/
def runLoop (resolveOracle : Media → Except String (List OpRec)) (entries : List Media)
    (st : RunState) : RunState :=
  entries.foldl (fun s m => processEntry resolveOracle m s) st

/-- Outcome of one `buildDeckFromAniList` run.  `fatal` is the catch block
of lines 355-358: it stores the cause text via `setError(e?.message)` AND
resets the card collection via `setCards([])`; `done` carries the final
deduplicated collection and the (possibly empty) zero-card message. -/
inductive BuildResult where
  | fatal (msg : String)
  | done (cards : List Card) (errMsg : String)
deriving DecidableEq

/-- The card collection left in CardStore after the run: the catch handler
executes `setCards([])`, so a fatal run leaves the empty collection. -/
def BuildResult.cardsAfter : BuildResult → List Card
  | .fatal _ => []
  | .done cs _ => cs

/-- Whether the run ended in the run-level catch block. -/
def BuildResult.isFatal : BuildResult → Bool
  | .fatal _ => true
  | .done _ _ => false

/-- Embedding of `buildDeckFromAniList(name)`:  user lookup, list fetch,
truncation `anime.slice(0, Math.max(10, maxShows))`, the distinguished
empty-catalog error (thrown inside `try`, hence also landing in the catch
block), the per-entry loop seeded with `idsRef.current = new Set(cards.map(c => c.id))`,
and the final dedupe with the zero-card message. -/
def buildDeckFromAniList (userLookup : Except String Int)
    (listFetch : Int → Except String (List Media))
    (resolveOracle : Media → Except String (List OpRec))
    (maxShows : Nat) (prevCards : List Card) : BuildResult :=
  match userLookup with
  | .error e => .fatal e
  | .ok uid =>
      match listFetch uid with
      | .error e => .fatal e
      | .ok anime =>
          let list := anime.take (max 10 maxShows)
          if list.length = 0 then
            .fatal "Aucun anime trouve pour cet utilisateur (profil vide ou prive)"
          else
            let st0 : RunState :=
              { cards := prevCards, ids := prevCards.map (fun c => c.id),
                progress := { totalShows := list.length, processedShows := 0, totalOps := 0 } }
            let st := runLoop resolveOracle list st0
            let deduped := dedupeById st.cards
            .done deduped
              (if deduped.length = 0 then
                "Aucun OP trouve via AnimeThemes pour tes series" else "")

/-! Card generation of `importAnilist` (`src/src/App.jsx` lines 117-216),
the current app's import pipeline.  Only the pure card construction from the
fetched media entries is modelled (the surrounding fetch and persistence do
not affect the generated ids). -/

/-- One `streamingEpisodes` element; `url = ""` models a missing (falsy) url. -/
structure Episode where
  title : String
  url : String
deriving DecidableEq

/-- One media entry of the AniList `MediaListCollection` response. -/
structure MediaB where
  id : Int
  titleRomaji : String
  titleEnglish : String
  titleNative : String
  streamingEpisodes : List Episode
deriving DecidableEq

/-- One card generated by `importAnilist`. -/
structure CardB where
  id : String
  titleRomaji : String
  opNumber : Nat
  videoUrl : Option String
  songTitle : String
  due : Int
deriving DecidableEq

/-- `MAX_CARDS_PER_SERIES = 5`. -/
def MAX_CARDS_PER_SERIES : Nat := 5

/-- `media.title.romaji || media.title.english || media.title.native`. -/
def pickTitleB (m : MediaB) : String :=
  if m.titleRomaji ≠ "" then m.titleRomaji
  else if m.titleEnglish ≠ "" then m.titleEnglish
  else m.titleNative

/-- Accumulator of the per-series episode loop. -/
structure SeriesAcc where
  globalIndex : Nat
  seenOps : List String
  uniqueOps : List Nat
  seriesCards : List CardB
deriving DecidableEq

/-- Accumulator over all media entries. -/
structure GenAcc where
  globalIndex : Nat
  seenOps : List String
  newCards : List CardB
deriving DecidableEq

/-- Per-episode body of `importAnilist`: `globalIndex` is bumped for every
episode; a card is pushed when the url is truthy, the uniqueKey is unseen and
the opNumber is new for this series; the pushed id is
`` `${media.id}::OP${opNumber}::${globalIndex}` ``. -/
def epStep (now : Int) (m : MediaB) (acc : SeriesAcc) (p : Nat × Episode) : SeriesAcc :=
  let gi := acc.globalIndex + 1
  let opNumber := p.1 + 1
  let uniqueKey := toString m.id ++ "::OP" ++ toString opNumber ++ "::" ++
    (if p.2.url ≠ "" then p.2.url else "none")
  if p.2.url ≠ "" ∧ uniqueKey ∉ acc.seenOps ∧ opNumber ∉ acc.uniqueOps then
    { globalIndex := gi, seenOps := uniqueKey :: acc.seenOps,
      uniqueOps := opNumber :: acc.uniqueOps,
      seriesCards := acc.seriesCards ++
        [{ id := toString m.id ++ "::OP" ++ toString opNumber ++ "::" ++ toString gi,
           titleRomaji := pickTitleB m, opNumber := opNumber, videoUrl := some p.2.url,
           songTitle := "Opening " ++ toString opNumber, due := now + 86400000 }] }
  else { acc with globalIndex := gi }

/-- One series: loop over `streamingEpisodes.slice(0, MAX_CARDS_PER_SERIES)`
with indices, then the no-episode fallback card `` `${media.id}::OP1::${globalIndex}` ``. -/
def genSeries (now : Int) (m : MediaB) (acc : GenAcc) : GenAcc :=
  let r := ((m.streamingEpisodes.take MAX_CARDS_PER_SERIES).enum).foldl (epStep now m)
    { globalIndex := acc.globalIndex, seenOps := acc.seenOps, uniqueOps := [], seriesCards := [] }
  if r.seriesCards = [] then
    let gi := r.globalIndex + 1
    let fallbackId := toString m.id ++ "::OP1::" ++ toString gi
    if fallbackId ∉ r.seenOps then
      { globalIndex := gi, seenOps := fallbackId :: r.seenOps,
        newCards := acc.newCards ++
          [{ id := fallbackId, titleRomaji := pickTitleB m, opNumber := 1, videoUrl := none,
             songTitle := "Opening 1", due := now + 86400000 }] }
    else { globalIndex := gi, seenOps := r.seenOps, newCards := acc.newCards }
  else { globalIndex := r.globalIndex, seenOps := r.seenOps,
         newCards := acc.newCards ++ r.seriesCards }

/-- All cards generated by one `importAnilist` run over `entries`
(`globalIndex` starts at 0, `seenOps` empty). -/
def genCards (now : Int) (entries : List MediaB) : List CardB :=
  (entries.foldl (fun acc m => genSeries now m acc)
    { globalIndex := 0, seenOps := [], newCards := [] }).newCards

/-! Concrete sample values used by witnesses and counterexamples. -/

/-- Sample catalog entry. -/
def sampleMedia : Media :=
  { anilistId := 20, titleRomaji := "Naruto", titleEnglish := "Naruto",
    titleNative := "NARUTO", season := "FALL", year := some 2002 }

/-- Second sample catalog entry (its resolution will fail in the witnesses). -/
def sampleMedia2 : Media :=
  { anilistId := 21, titleRomaji := "Bleach", titleEnglish := "Bleach",
    titleNative := "BLEACH", season := "FALL", year := some 2004 }

/-- Sample resolved opening. -/
def sampleOp : OpRec :=
  { number := some 1, songTitle := "GO!!!", artists := "",
    videoUrl := "https://v.animethemes.moe/x.webm" }

/-- The card the import stages for `sampleMedia`'s first opening. -/
def card20 : Card := mkCard sampleMedia sampleOp

/-- Sample resolution oracle: entry 21 throws, every other entry resolves to
one opening. -/
def resolveFail21 : Media → Except String (List OpRec) :=
  fun m => if m.anilistId = 21 then .error "boom" else .ok [sampleOp]

/-- Sample resolution oracle: every entry resolves to one opening. -/
def resolveOne : Media → Except String (List OpRec) := fun _ => .ok [sampleOp]

/-- Sample list fetch returning one entry. -/
def lfOne : Int → Except String (List Media) := fun _ => .ok [sampleMedia]

/-- Sample list fetch returning two entries. -/
def lfTwo : Int → Except String (List Media) := fun _ => .ok [sampleMedia, sampleMedia2]

/-- Sample loop state: empty store, two shows expected. -/
def st0sample : RunState :=
  { cards := [], ids := [], progress := { totalShows := 2, processedShows := 0, totalOps := 0 } }

/-- Sample AniList media entry with one streaming episode, for the
`importAnilist` pipeline. -/
def mediaB7 : MediaB :=
  { id := 7, titleRomaji := "T", titleEnglish := "", titleNative := "",
    streamingEpisodes := [{ title := "ep", url := "u" }] }

/-! Helper lemmas about the three-grade scheduler. -/

theorem sm2_attempts (p : Option App.SrsState) (q : Nat) (eh : Int) (da : Bool) (now : Int) :
    (App.sm2Schedule p q eh da now).attempts = App.attemptsOf p + 1 := by
  cases p <;> simp only [App.sm2Schedule, App.attemptsOf, App.defaultSrs, Option.getD] <;>
    split_ifs <;> rfl

theorem sm2_successes (p : Option App.SrsState) (q : Nat) (eh : Int) (da : Bool) (now : Int) :
    (App.sm2Schedule p q eh da now).successes
      = App.successesOf p + (if 0 < q then 1 else 0) := by
  cases p <;> simp only [App.sm2Schedule, App.successesOf, App.defaultSrs, Option.getD] <;>
    split_ifs <;> rfl

theorem sm2_reps (p : Option App.SrsState) (q : Nat) (eh : Int) (da : Bool) (now : Int) :
    (App.sm2Schedule p q eh da now).reps = App.repsOf p + 1 := by
  cases p <;> simp only [App.sm2Schedule, App.repsOf, App.defaultSrs, Option.getD] <;>
    split_ifs <;> rfl

theorem sm2_again_due (p : Option App.SrsState) (eh : Int) (da : Bool) (now : Int) :
    (App.sm2Schedule p 0 eh da now).due = now + (if da then 600000 else 0) := by
  cases p <;> simp [App.sm2Schedule, App.defaultSrs]

theorem applyGrades_cons (p : Option App.SrsState) (g : Nat × Int) (gs : List (Nat × Int))
    (eh : Int) (da : Bool) :
    App.applyGrades p (g :: gs) eh da
      = App.applyGrades (some (App.sm2Schedule p g.1 eh da g.2)) gs eh da := rfl

theorem applyGrades_attempts (eh : Int) (da : Bool) :
    ∀ (gs : List (Nat × Int)) (p : Option App.SrsState),
      App.attemptsOf (App.applyGrades p gs eh da) = App.attemptsOf p + gs.length := by
  intro gs
  induction gs with
  | nil => intro p; rfl
  | cons g gs ih =>
      intro p
      rw [applyGrades_cons, ih]
      have h : App.attemptsOf (some (App.sm2Schedule p g.1 eh da g.2))
          = App.attemptsOf p + 1 := sm2_attempts p g.1 eh da g.2
      rw [h]
      simp [Nat.add_assoc, Nat.add_comm 1]

theorem applyGrades_successes (eh : Int) (da : Bool) :
    ∀ (gs : List (Nat × Int)) (p : Option App.SrsState),
      App.successesOf (App.applyGrades p gs eh da)
        = App.successesOf p + (gs.filter (fun g => decide (0 < g.1))).length := by
  intro gs
  induction gs with
  | nil => intro p; rfl
  | cons g gs ih =>
      intro p
      rw [applyGrades_cons, ih]
      have h : App.successesOf (some (App.sm2Schedule p g.1 eh da g.2))
          = App.successesOf p + (if 0 < g.1 then 1 else 0) :=
        sm2_successes p g.1 eh da g.2
      rw [h]
      by_cases hg : 0 < g.1
      · simp [hg, List.filter]
        omega
      · simp [hg, List.filter]

/-! Helper lemmas about the four-grade scheduler. -/

theorem legacy_again_reps (s : Option Legacy.State) (now : ℚ) :
    (Legacy.sm2Schedule s 0 now).reps = 0 := by
  simp [Legacy.sm2Schedule]

theorem legacy_again_due (s : Option Legacy.State) (now : ℚ) :
    (Legacy.sm2Schedule s 0 now).due = now + 600000 := by
  simp [Legacy.sm2Schedule]

theorem legacy_nonagain_reps (s : Option Legacy.State) (q : Nat) (now : ℚ) (hq : q ≠ 0) :
    (Legacy.sm2Schedule s q now).reps = (s.getD Legacy.defaultState).reps + 1 := by
  simp [Legacy.sm2Schedule, hq]

/-- C7 counterexample: the repository's four-grade scheduling policy
(`sm2Schedule` of `src/unnamed/part_000`) records no attempt counter at all,
so after the one-grade sequence [Good] from the default state the attempt
count reads 0, not 1 — refuting "attemptCount increases by exactly 1 on
every call … under every scheduling policy". -/
theorem legacy_no_attempt_counter_cex :
    (Legacy.sm2Schedule none 2 0).attemptCount = 0 ∧
    ([(2, 0)] : List (Nat × Int)).length = 1 ∧ (0 : Nat) ≠ 1 :=
  ⟨rfl, rfl, by decide⟩

/-- C7 (amended): under the three-grade policy (`sm2Schedule` of
`src/src/App.jsx`) every call increments `attempts` by exactly 1 and
increments `successes` exactly on the non-failing grades (Hard and Easy,
quality > 0); hence after any finite grade sequence the attempt count grows
by the sequence length (so from the default state it equals the length),
the success count grows by the number of non-failing grades, and
`0 ≤ successCount ≤ attemptCount` holds in every reachable state.  The
four-grade policy of `src/unnamed/part_000` tracks no such counters: they
read 0 after every call. -/
theorem attempt_success_counters (p : Option App.SrsState) (gs : List (Nat × Int))
    (q : Nat) (eh : Int) (da : Bool) (now : Int)
    (h : App.successesOf p ≤ App.attemptsOf p) :
    (App.sm2Schedule p q eh da now).attempts = App.attemptsOf p + 1 ∧
    (App.sm2Schedule p q eh da now).successes
      = App.successesOf p + (if 0 < q then 1 else 0) ∧
    App.attemptsOf (App.applyGrades p gs eh da) = App.attemptsOf p + gs.length ∧
    App.successesOf (App.applyGrades p gs eh da)
      = App.successesOf p + (gs.filter (fun g => decide (0 < g.1))).length ∧
    App.successesOf (App.applyGrades p gs eh da)
      ≤ App.attemptsOf (App.applyGrades p gs eh da) ∧
    App.attemptsOf (App.applyGrades none gs eh da) = gs.length ∧
    (∀ (s : Option Legacy.State) (qq : Nat) (n : ℚ),
      (Legacy.sm2Schedule s qq n).attemptCount = 0 ∧
      (Legacy.sm2Schedule s qq n).successCount = 0) := by
  refine ⟨sm2_attempts p q eh da now, sm2_successes p q eh da now,
    applyGrades_attempts eh da gs p, applyGrades_successes eh da gs p, ?_, ?_, ?_⟩
  · rw [applyGrades_attempts eh da gs p, applyGrades_successes eh da gs p]
    have hlen : (gs.filter (fun g => decide (0 < g.1))).length ≤ gs.length :=
      List.length_filter_le _ gs
    omega
  · rw [applyGrades_attempts eh da gs none]
    simp [App.attemptsOf]
  · intro s qq n; exact ⟨rfl, rfl⟩

/-- C7 witness: the three-grade sequence [Easy, Again, Hard] from the
default state gives attemptCount 3 and successCount 2. -/
theorem attempt_success_counters_wit :
    App.attemptsOf (App.applyGrades none [(2, 0), (0, 5), (1, 9)] 48 false) = 3 ∧
    App.successesOf (App.applyGrades none [(2, 0), (0, 5), (1, 9)] 48 false) = 2 := by
  have h := attempt_success_counters none [(2, 0), (0, 5), (1, 9)] 2 48 false 0 (by decide)
  exact ⟨by rw [h.2.2.1]; rfl, by rw [h.2.2.2.1]; rfl⟩

/-- C8 counterexample: under the three-grade policy (`sm2Schedule` of
`src/src/App.jsx`), grading Again (quality 0) from the default state yields
repetitionCount 1, not 0 — `reps += 1` runs on every call and is never
reset — refuting "grading Again yields a new state with repetitionCount = 0
… under every scheduling policy". -/
theorem again_increments_reps_cex :
    (App.sm2Schedule none 0 48 false 0).reps = 1 ∧ (1 : Nat) ≠ 0 :=
  ⟨rfl, by decide⟩

/-- C8 (amended): the four-grade reference policy (`src/unnamed/part_000`)
resets repetitionCount to 0 on Again and schedules `dueAt` exactly 10
minutes (600000 ms) after call time, and increments repetitionCount on every
non-Again grade; the three-grade policy (`src/src/App.jsx`) instead
increments repetitionCount on every grade, Again included, and schedules
Again at now + 10 minutes only when the `diffAgain` option is set, else
immediately (dueAt = now). -/
theorem again_reset_per_policy (s : Option Legacy.State) (p : Option App.SrsState)
    (q : Nat) (nowL : ℚ) (now : Int) (eh : Int) (da : Bool) (hq : q ≠ 0) :
    (Legacy.sm2Schedule s 0 nowL).reps = 0 ∧
    (Legacy.sm2Schedule s 0 nowL).due = nowL + 600000 ∧
    (Legacy.sm2Schedule s q nowL).reps = (s.getD Legacy.defaultState).reps + 1 ∧
    (App.sm2Schedule p q eh da now).reps = App.repsOf p + 1 ∧
    (App.sm2Schedule p 0 eh da now).reps = App.repsOf p + 1 ∧
    (App.sm2Schedule p 0 eh da now).due = now + (if da then 600000 else 0) :=
  ⟨legacy_again_reps s nowL, legacy_again_due s nowL, legacy_nonagain_reps s q nowL hq,
    sm2_reps p q eh da now, sm2_reps p 0 eh da now, sm2_again_due p eh da now⟩

/-- C8 witness: from a prior four-grade state with reps = 3, Again yields
reps 0 and dueAt = now + 600000; Good (quality 2) at the same prior yields
reps 4; the three-grade policy at the default state maps Again to reps 1
with dueAt = now when diffAgain is off. -/
theorem again_reset_per_policy_wit :
    (Legacy.sm2Schedule (some { ef := 5/2, interval := 172800000, reps := 3, due := 0 }) 0 50).reps
      = 0 ∧
    (Legacy.sm2Schedule (some { ef := 5/2, interval := 172800000, reps := 3, due := 0 }) 0 50).due
      = 600050 ∧
    (Legacy.sm2Schedule (some { ef := 5/2, interval := 172800000, reps := 3, due := 0 }) 2 50).reps
      = 4 ∧
    (App.sm2Schedule none 0 48 false 7).due = 7 := by
  have h := again_reset_per_policy
    (some { ef := 5/2, interval := 172800000, reps := 3, due := 0 }) none 2 50 7 48 false
    (by decide)
  refine ⟨h.1, ?_, ?_, ?_⟩
  · rw [h.2.1]; norm_num
  · rw [h.2.2.1]; rfl
  · rw [h.2.2.2.2.2]; rfl

/-! Helper lemmas about the retry loop. -/

theorem fetchLoop_counts (resp : Nat → HttpResp) (jit : Nat → Nat) :
    ∀ (k a : Nat), MAX_RETRIES ≤ a + k →
      (fetchLoop resp jit a).requests = (fetchLoop resp jit a).sleeps.length + 1 ∧
      (fetchLoop resp jit a).requests ≤ k + 1 := by
  intro k
  induction k with
  | zero =>
      intro a ha
      have hcap : MAX_RETRIES ≤ a := by omega
      rw [fetchLoop.eq_def]
      by_cases hok : (resp a).ok <;> by_cases htr : isTransient (resp a).status <;>
        simp [hok, htr, hcap]
  | succ k ih =>
      intro a ha
      rw [fetchLoop.eq_def]
      by_cases hok : (resp a).ok
      · simp [hok]
      · by_cases htr : isTransient (resp a).status
        · by_cases hcap : MAX_RETRIES ≤ a
          · simp [hok, htr, hcap]
          · have hr := ih (a + 1) (by omega)
            simp [hok, htr, hcap]
            omega
        · simp [hok, htr]

theorem fetchLoop_exhaust (resp : Nat → HttpResp) (jit : Nat → Nat) :
    ∀ (k a : Nat), a + k = MAX_RETRIES →
      (∀ i, a ≤ i → i ≤ MAX_RETRIES → (resp i).ok = false ∧ isTransient (resp i).status) →
      (fetchLoop resp jit a).result
          = .error (errorText (resp MAX_RETRIES).status (resp MAX_RETRIES).statusText
              (resp MAX_RETRIES).bodyText) ∧
      (fetchLoop resp jit a).sleeps
          = (List.range' a k).map (fun i => waitOf jit i (resp i)) ∧
      (fetchLoop resp jit a).requests = k + 1 := by
  intro k
  induction k with
  | zero =>
      intro a ha hall
      have h6 : a = MAX_RETRIES := by omega
      subst h6
      have h := hall MAX_RETRIES (le_refl _) (le_refl _)
      rw [fetchLoop.eq_def]
      simp [h.1, h.2]
  | succ k ih =>
      intro a ha hall
      have h := hall a (le_refl a) (by omega)
      have hcap : ¬ MAX_RETRIES ≤ a := by omega
      have hr := ih (a + 1) (by omega) (fun i hi hi6 => hall i (by omega) hi6)
      rw [fetchLoop.eq_def]
      simp only [h.1, Bool.false_eq_true, if_false, h.2, if_true, hcap, if_neg hcap]
      refine ⟨hr.1, ?_, ?_⟩
      · rw [hr.2.1, List.range'_succ]
        rfl
      · rw [hr.2.2]

/-- C6: for every response sequence — in particular for an infinite sequence
of transient failures — the retry loop of `fetchJSON` reaches a terminal
state (a returned parsed body or a thrown error) after at most
`MAX_RETRIES + 1` requests, and every request beyond the first is preceded
by exactly one sleep (no busy-looping, no unbounded retry). -/
theorem fetch_bounded_retries (resp : Nat → HttpResp) (jit : Nat → Nat) :
    (fetchJSON resp jit).requests = (fetchJSON resp jit).sleeps.length + 1 ∧
    (fetchJSON resp jit).requests ≤ MAX_RETRIES + 1 :=
  fetchLoop_counts resp jit MAX_RETRIES 0 (by omega)

/-- C5 counterexample: with HTTP 500 responses all carrying the present
header `Retry-After: 0`, the wait before the second retry is 2000 ms (the
exponential backoff), not the claimed `max(1000, 0 * 1000) = 1000` ms:
`fetchJSON` branches on the truthiness of `Number(header)`, not on the
header's presence, so a present zero-valued (or non-numeric) header falls
through to exponential backoff. -/
theorem retry_after_zero_cex :
    (respRA0 1).retryAfter = some 0 ∧
    (fetchJSON respRA0 zeroJit).sleeps = [1000, 2000, 4000, 8000, 16000, 16000] ∧
    (fetchJSON respRA0 zeroJit).sleeps.getD 1 0
      ≠ max 1000 (((respRA0 1).retryAfter.getD 0) * 1000) := by
  have htr : isTransient 500 := by decide
  have h := fetchLoop_exhaust respRA0 zeroJit MAX_RETRIES 0 (by omega)
    (fun i _ _ => ⟨rfl, htr⟩)
  refine ⟨rfl, ?_, ?_⟩
  · unfold fetchJSON
    rw [h.2.1]
    rfl
  · unfold fetchJSON
    rw [h.2.1]
    decide

/-- C5 (amended): the HTTP client retries exactly the statuses 429 and
[500, 600): before each such retry it waits `max(1000, retryAfter * 1000)`
when a `Retry-After` header is present with a nonzero numeric value, and
`min(1000 * 2^attempt, 16000)` plus the jitter draw otherwise (the header
absent, non-numeric — or present with value 0); after the fixed cap of
`MAX_RETRIES` retries it fails with the last observed status and body text;
any other non-success status fails immediately with no retry and no sleep. -/
theorem retry_policy (respA respB respC : Nat → HttpResp) (jit : Nat → Nat) (k : Int)
    (hA : ∀ i, i ≤ MAX_RETRIES → (respA i).ok = false ∧ isTransient (respA i).status)
    (hB0 : (respB 0).ok = false) (hB1 : ¬ isTransient (respB 0).status)
    (hC0 : (respC 0).ok = false) (hC1 : isTransient (respC 0).status)
    (hC2 : (respC 0).retryAfter = some k) (hk : k ≠ 0) :
    (fetchJSON respA jit).result
        = .error (errorText (respA MAX_RETRIES).status (respA MAX_RETRIES).statusText
            (respA MAX_RETRIES).bodyText) ∧
    (fetchJSON respA jit).sleeps
        = (List.range' 0 MAX_RETRIES).map (fun i => waitOf jit i (respA i)) ∧
    (fetchJSON respA jit).requests = MAX_RETRIES + 1 ∧
    (fetchJSON respB jit).result
        = .error (errorText (respB 0).status (respB 0).statusText (respB 0).bodyText) ∧
    (fetchJSON respB jit).requests = 1 ∧
    (fetchJSON respB jit).sleeps = [] ∧
    (fetchJSON respC jit).sleeps.head? = some (max 1000 (k * 1000)) ∧
    (∀ (a : Nat) (r : HttpResp), r.retryAfter = none →
      waitOf jit a r = Int.ofNat (min (1000 * 2 ^ a) 16000 + jit a)) := by
  have hA2 := fetchLoop_exhaust respA jit MAX_RETRIES 0 (by omega)
    (fun i _ hi6 => hA i hi6)
  refine ⟨hA2.1, hA2.2.1, hA2.2.2, ?_, ?_, ?_, ?_, ?_⟩
  · unfold fetchJSON
    rw [fetchLoop.eq_def]
    simp [hB0, hB1]
  · unfold fetchJSON
    rw [fetchLoop.eq_def]
    simp [hB0, hB1]
  · unfold fetchJSON
    rw [fetchLoop.eq_def]
    simp [hB0, hB1]
  · unfold fetchJSON
    rw [fetchLoop.eq_def]
    have hcap : ¬ MAX_RETRIES ≤ 0 := by simp [MAX_RETRIES]
    simp [hC0, hC1, hcap, waitOf, hC2, hk]
  · intro a r hr
    simp [waitOf, hr]

/-- C5 witness: with constant jitter 5, a stream of header-less 503s
exhausts the cap after 7 requests with sleeps 1005, 2005, 4005, 8005,
16005, 16005 ms; a 404 fails at once with no sleep and the formatted error
"404 Not Found"; a 429 carrying `Retry-After: 7` first waits 7000 ms. -/
theorem retry_policy_wit :
    (fetchJSON resp503 fiveJit).requests = 7 ∧
    (fetchJSON resp503 fiveJit).sleeps = [1005, 2005, 4005, 8005, 16005, 16005] ∧
    (fetchJSON resp404 fiveJit).result = .error "404 Not Found" ∧
    (fetchJSON resp404 fiveJit).sleeps = [] ∧
    (fetchJSON resp429 fiveJit).sleeps.head? = some 7000 := by
  have htr : isTransient 503 := by decide
  have h := retry_policy resp503 resp404 resp429 fiveJit 7
    (fun i _ => ⟨rfl, htr⟩) rfl (by decide) rfl (by decide) rfl (by decide)
  refine ⟨?_, ?_, ?_, h.2.2.2.2.2.1, ?_⟩
  · rw [h.2.2.1]
    rfl
  · rw [h.2.1]
    rfl
  · rw [h.2.2.2.1]
    rfl
  · rw [h.2.2.2.2.2.2.1]
    rfl

/-! Helper lemmas about the theme resolver. -/

theorem cacheGet_cacheSet (cache : List (String × List OpRec)) (k : String) (v : List OpRec) :
    cacheGet (cacheSet cache k v) k = some v := by
  simp [cacheGet, cacheSet, List.find?]

theorem resolveMiss_eq_spec (net : String → List AnimeRec) (ti : Titles) :
    resolveMiss net ti = resolveSpec net ti := by
  unfold resolveMiss resolveSpec
  by_cases hr : ti.titleRomaji = "" <;> by_cases he : ti.titleEnglish = "" <;>
    by_cases hn : ti.titleNative = "" <;>
      simp [hr, he, hn, firstHit, List.filter] <;> split_ifs <;> simp_all [firstHit]

/-- C3: for every catalogId with an entry in the cache — including an entry
whose value is the explicitly empty list, which is a truthy array in JS —
`getOpeningsForAniListId` returns the cached list, issues zero network
requests and leaves the cache untouched. -/
theorem cache_hit_no_request (cache : List (String × List OpRec))
    (net : String → List AnimeRec) (aid : Int) (ti : Titles) (l : List OpRec)
    (h : cacheGet cache (toString aid) = some l) :
    getOpeningsForAniListId cache net aid ti
      = { result := l, cache := cache, requests := 0 } := by
  unfold getOpeningsForAniListId
  rw [h]

/-- C3 witness: id 42 cached with the explicitly empty list: resolve returns
[] with zero requests and an unchanged cache, although the network oracle
would have matched the english title. -/
theorem cache_hit_no_request_wit :
    getOpeningsForAniListId [("42", [])] netB 42 titlesAB
      = { result := [], cache := [("42", [])], requests := 0 } :=
  cache_hit_no_request [("42", [])] netB 42 titlesAB [] rfl

/-- C4: on a cache miss, `getOpeningsForAniListId` realises exactly the
spec's chain (`resolveSpec`): it tries the non-empty title variants in the
fixed order romaji, english, native, queries the theme index once per tried
variant, stops at the first variant with a non-empty result list, returns
the empty list when every tried variant yields nothing, and in every case
writes the final result into the cache under the catalog id before
returning. -/
theorem resolve_miss_chain (cache : List (String × List OpRec))
    (net : String → List AnimeRec) (aid : Int) (ti : Titles)
    (h : cacheGet cache (toString aid) = none) :
    (getOpeningsForAniListId cache net aid ti).result = (resolveSpec net ti).1 ∧
    (getOpeningsForAniListId cache net aid ti).requests = (resolveSpec net ti).2 ∧
    cacheGet (getOpeningsForAniListId cache net aid ti).cache (toString aid)
      = some (resolveSpec net ti).1 := by
  unfold getOpeningsForAniListId
  rw [h, resolveMiss_eq_spec]
  exact ⟨rfl, rfl, cacheGet_cacheSet cache (toString aid) (resolveSpec net ti).1⟩

/-- C4 witness: the spec's scenario — id 9 absent from the cache, romaji "A"
yields no match, english "B" yields one opening record: the resolver returns
exactly that record after two queries and the cache afterwards maps "9" to
it. -/
theorem resolve_miss_chain_wit :
    (getOpeningsForAniListId [] netB 9 titlesAB).result = [op0] ∧
    (getOpeningsForAniListId [] netB 9 titlesAB).requests = 2 ∧
    cacheGet (getOpeningsForAniListId [] netB 9 titlesAB).cache (toString (9 : Int))
      = some [op0] := by
  have h := resolve_miss_chain [] netB 9 titlesAB rfl
  have hs : resolveSpec netB titlesAB = ([op0], 2) := by rfl
  refine ⟨?_, ?_, ?_⟩
  · rw [h.1, hs]
  · rw [h.2.1, hs]
  · rw [h.2.2, hs]

/-- C10: `fetchByUrl` reads theme entries only from the first matched record
of the response array — appending further matched records never changes the
extraction — so a response whose first record carries no opening-type theme
yields no results for that variant even if a later matched record does carry
openings. -/
theorem first_record_only (a : AnimeRec) (rest : List AnimeRec) :
    extractResults (a :: rest) = extractResults [a] ∧
    ((∀ t ∈ a.animethemes, ¬ upper t.type = "OP") → extractResults (a :: rest) = []) := by
  refine ⟨rfl, ?_⟩
  intro h
  simp only [extractResults, List.map_eq_nil_iff, List.filter_eq_nil_iff]
  intro t ht
  simpa using h t ht

/-- C10 witness: a response whose first record has only an ending theme and
whose second record has an opening extracts nothing, although the second
record alone would extract one opening. -/
theorem first_record_only_wit :
    extractResults [recNoOp, recWithOp] = [] ∧ extractResults [recWithOp] ≠ [] := by
  have h := first_record_only recNoOp [recWithOp]
  refine ⟨h.2 ?_, by decide⟩
  intro t ht
  simp only [recNoOp, List.mem_singleton] at ht
  subst ht
  decide

/-! Helper lemmas about `dedupeById`. -/

theorem mem_insertCard (acc : List Card) (x c : Card) (h : c ∈ insertCard acc x) :
    c ∈ acc ∨ c = x := by
  unfold insertCard at h
  split_ifs at h with hp
  · rcases List.mem_map.1 h with ⟨d, hd, hdc⟩
    by_cases hid : (d.id == x.id) = true
    · right
      rw [if_pos hid] at hdc
      exact hdc.symm
    · left
      rw [if_neg hid] at hdc
      exact hdc ▸ hd
  · rcases List.mem_append.1 h with h1 | h1
    · exact Or.inl h1
    · right
      simpa using h1

theorem mem_foldl_insert :
    ∀ (l acc : List Card) (c : Card), c ∈ l.foldl insertCard acc → c ∈ acc ∨ c ∈ l := by
  intro l
  induction l with
  | nil => intro acc c h; exact Or.inl h
  | cons x xs ih =>
      intro acc c h
      rcases ih (insertCard acc x) c h with h1 | h1
      · rcases mem_insertCard acc x c h1 with h2 | h2
        · exact Or.inl h2
        · exact Or.inr (h2 ▸ List.mem_cons_self x xs)
      · exact Or.inr (List.mem_cons_of_mem x h1)

theorem dedupe_subset (l : List Card) (c : Card) (h : c ∈ dedupeById l) : c ∈ l := by
  rcases mem_foldl_insert l [] c h with h1 | h1
  · simp at h1
  · exact h1

theorem insertCard_ids_of_any (acc : List Card) (x : Card)
    (h : acc.any (fun d => d.id == x.id) = true) :
    (insertCard acc x).map Card.id = acc.map Card.id := by
  unfold insertCard
  rw [if_pos h, List.map_map]
  apply List.map_congr_left
  intro d _
  by_cases hid : d.id = x.id
  · simp [hid]
  · simp [hid]

theorem insertCard_ids_of_not_any (acc : List Card) (x : Card)
    (h : ¬ acc.any (fun d => d.id == x.id) = true) :
    (insertCard acc x).map Card.id = acc.map Card.id ++ [x.id] := by
  unfold insertCard
  rw [if_neg h]
  simp

theorem foldl_insert_of_nodup :
    ∀ (l acc : List Card), ((acc ++ l).map Card.id).Nodup → l.foldl insertCard acc = acc ++ l := by
  intro l
  induction l with
  | nil => intro acc _; simp
  | cons x xs ih =>
      intro acc hnd
      have hx : x.id ∉ acc.map Card.id := by
        intro hmem
        have : x.id ∈ (x :: xs).map Card.id := by simp
        have hd := List.disjoint_of_nodup_append (by simpa using hnd)
        exact hd hmem this
      have hany : ¬ acc.any (fun d => d.id == x.id) = true := by
        intro hc
        rcases List.any_eq_true.1 hc with ⟨d, hd, hdx⟩
        exact hx (by simpa [eq_of_beq hdx] using List.mem_map_of_mem Card.id hd)
      have hins : insertCard acc x = acc ++ [x] := by
        unfold insertCard
        rw [if_neg hany]
      have : (x :: xs).foldl insertCard acc = xs.foldl insertCard (acc ++ [x]) := by
        simp [List.foldl_cons, hins]
      rw [this, ih (acc ++ [x]) (by simpa using hnd)]
      simp

theorem foldl_insert_ids_nodup :
    ∀ (l acc : List Card), (acc.map Card.id).Nodup →
      ((l.foldl insertCard acc).map Card.id).Nodup := by
  intro l
  induction l with
  | nil => intro acc h; exact h
  | cons x xs ih =>
      intro acc h
      apply ih
      by_cases hany : acc.any (fun d => d.id == x.id) = true
      · rw [insertCard_ids_of_any acc x hany]
        exact h
      · rw [insertCard_ids_of_not_any acc x hany]
        have hx : x.id ∉ acc.map Card.id := by
          intro hmem
          rcases List.mem_map.1 hmem with ⟨d, hd, hdi⟩
          exact hany (List.any_eq_true.2 ⟨d, hd, by simp [hdi]⟩)
        simp [List.nodup_append, h, hx]

theorem dedupe_ids_nodup (l : List Card) : ((dedupeById l).map Card.id).Nodup :=
  foldl_insert_ids_nodup l [] (by simp)

theorem dedupe_of_nodup (l : List Card) (h : (l.map Card.id).Nodup) : dedupeById l = l := by
  unfold dedupeById
  rw [foldl_insert_of_nodup l [] (by simpa using h)]
  simp

theorem dedupe_idem (l : List Card) : dedupeById (dedupeById l) = dedupeById l :=
  dedupe_of_nodup (dedupeById l) (dedupe_ids_nodup l)

theorem ids_insertCard (acc : List Card) (x : Card) (i : String) :
    (∃ c ∈ insertCard acc x, c.id = i) ↔ (∃ c ∈ acc, c.id = i) ∨ x.id = i := by
  constructor
  · rintro ⟨c, hc, hci⟩
    rcases mem_insertCard acc x c hc with h1 | h1
    · exact Or.inl ⟨c, h1, hci⟩
    · exact Or.inr (h1 ▸ hci)
  · intro h
    unfold insertCard
    by_cases hany : acc.any (fun d => d.id == x.id) = true
    · rw [if_pos hany]
      rcases h with ⟨c, hc, hci⟩ | hxi
      · by_cases hcx : c.id = x.id
        · refine ⟨x, List.mem_map.2 ⟨c, hc, by simp [hcx]⟩, by rw [← hcx, hci]⟩
        · refine ⟨c, List.mem_map.2 ⟨c, hc, by simp [hcx]⟩, hci⟩
      · rcases List.any_eq_true.1 hany with ⟨d, hd, hdx⟩
        refine ⟨x, List.mem_map.2 ⟨d, hd, by simp [eq_of_beq hdx]⟩, hxi⟩
    · rw [if_neg hany]
      rcases h with ⟨c, hc, hci⟩ | hxi
      · exact ⟨c, List.mem_append_left _ hc, hci⟩
      · exact ⟨x, List.mem_append_right _ (by simp), hxi⟩

theorem ids_foldl_insert :
    ∀ (l acc : List Card) (i : String),
      (∃ c ∈ l.foldl insertCard acc, c.id = i)
        ↔ (∃ c ∈ acc, c.id = i) ∨ (∃ c ∈ l, c.id = i) := by
  intro l
  induction l with
  | nil => intro acc i; simp
  | cons x xs ih =>
      intro acc i
      rw [List.foldl_cons, ih (insertCard acc x) i, ids_insertCard acc x i]
      constructor
      · rintro ((h | h) | h)
        · exact Or.inl h
        · exact Or.inr ⟨x, by simp, h⟩
        · rcases h with ⟨c, hc, hci⟩
          exact Or.inr ⟨c, List.mem_cons_of_mem x hc, hci⟩
      · rintro (h | ⟨c, hc, hci⟩)
        · exact Or.inl (Or.inl h)
        · rcases List.mem_cons.1 hc with h1 | h1
          · exact Or.inl (Or.inr (h1 ▸ hci))
          · exact Or.inr ⟨c, h1, hci⟩

theorem ids_dedupe (l : List Card) (i : String) :
    (∃ c ∈ dedupeById l, c.id = i) ↔ (∃ c ∈ l, c.id = i) := by
  unfold dedupeById
  rw [ids_foldl_insert l [] i]
  simp

/-! Helper lemmas about the staging loop. -/

theorem stageStep_ids_mono (m : Media) (acc : StageAcc) (op : OpRec) (i : String)
    (h : i ∈ acc.ids) : i ∈ (stageStep m acc op).ids := by
  simp only [stageStep]
  split_ifs
  · exact h
  · exact List.mem_cons_of_mem _ h

theorem stage_ids_mono (m : Media) :
    ∀ (ops : List OpRec) (acc : StageAcc) (i : String),
      i ∈ acc.ids → i ∈ (ops.foldl (stageStep m) acc).ids := by
  intro ops
  induction ops with
  | nil => intro acc i h; exact h
  | cons op ops ih =>
      intro acc i h
      exact ih (stageStep m acc op) i (stageStep_ids_mono m acc op i h)

theorem stage_cards_mono (m : Media) :
    ∀ (ops : List OpRec) (acc : StageAcc) (c : Card),
      c ∈ acc.newCards → c ∈ (ops.foldl (stageStep m) acc).newCards := by
  intro ops
  induction ops with
  | nil => intro acc c h; exact h
  | cons op ops ih =>
      intro acc c h
      apply ih
      simp only [stageStep]
      split_ifs
      · exact h
      · exact List.mem_append_left _ h

theorem stage_covered (m : Media) :
    ∀ (ops : List OpRec) (acc : StageAcc) (op : OpRec), op ∈ ops →
      opId m.anilistId op.number ∈ (ops.foldl (stageStep m) acc).ids := by
  intro ops
  induction ops with
  | nil => intro acc op h; simp at h
  | cons op1 ops ih =>
      intro acc op h
      rcases List.mem_cons.1 h with h1 | h1
      · subst h1
        have hstep : opId m.anilistId op.number ∈ (stageStep m acc op).ids := by
          simp only [stageStep]
          split_ifs with hin
          · exact hin
          · exact List.mem_cons_self _ _
        exact stage_ids_mono m ops (stageStep m acc op) _ hstep
      · exact ih (stageStep m acc op1) op h1

theorem stage_skip (m : Media) :
    ∀ (ops : List OpRec) (acc : StageAcc),
      (∀ op ∈ ops, opId m.anilistId op.number ∈ acc.ids) →
      ops.foldl (stageStep m) acc = acc := by
  intro ops
  induction ops with
  | nil => intro acc _; rfl
  | cons op ops ih =>
      intro acc h
      have h1 : stageStep m acc op = acc := by
        simp only [stageStep]
        rw [if_pos (h op (List.mem_cons_self _ _))]
      rw [List.foldl_cons, h1]
      exact ih acc (fun op2 hop2 => h op2 (List.mem_cons_of_mem op hop2))

theorem stage_new_src (m : Media) :
    ∀ (ops : List OpRec) (acc : StageAcc) (c : Card),
      c ∈ (ops.foldl (stageStep m) acc).newCards →
      c ∈ acc.newCards ∨ ∃ op ∈ ops, c = mkCard m op := by
  intro ops
  induction ops with
  | nil => intro acc c h; exact Or.inl h
  | cons op ops ih =>
      intro acc c h
      rcases ih (stageStep m acc op) c h with h1 | h1
      · simp only [stageStep] at h1
        split_ifs at h1
        · exact Or.inl h1
        · rcases List.mem_append.1 h1 with h2 | h2
          · exact Or.inl h2
          · exact Or.inr ⟨op, List.mem_cons_self _ _, by simpa using h2⟩
      · rcases h1 with ⟨op2, hop2, hc⟩
        exact Or.inr ⟨op2, List.mem_cons_of_mem op hop2, hc⟩

theorem stage_ids_src (m : Media) :
    ∀ (ops : List OpRec) (acc : StageAcc) (i : String),
      i ∈ (ops.foldl (stageStep m) acc).ids →
      i ∈ acc.ids ∨ ∃ c ∈ (ops.foldl (stageStep m) acc).newCards, c.id = i := by
  intro ops
  induction ops with
  | nil => intro acc i h; exact Or.inl h
  | cons op ops ih =>
      intro acc i h
      rcases ih (stageStep m acc op) i h with h1 | h1
      · simp only [stageStep] at h1
        split_ifs at h1 with hin
        · exact Or.inl h1
        · rcases List.mem_cons.1 h1 with h2 | h2
          · right
            have hm : mkCard m op ∈ (stageStep m acc op).newCards := by
              simp only [stageStep]
              rw [if_neg hin]
              simp
            exact ⟨mkCard m op, stage_cards_mono m ops (stageStep m acc op) _ hm, h2.symm⟩
          · exact Or.inl h2
      · exact Or.inr h1

/-! Helper lemmas about the import loop. -/

theorem processEntry_ids_mono (r : Media → Except String (List OpRec)) (m : Media)
    (st : RunState) (i : String) (h : i ∈ st.ids) : i ∈ (processEntry r m st).ids := by
  cases hr : r m with
  | error e => simp only [processEntry, hr]; exact h
  | ok ops =>
      simp only [processEntry, hr, stageOps]
      exact stage_ids_mono m ops { newCards := [], ids := st.ids } i h

theorem runLoop_ids_mono (r : Media → Except String (List OpRec)) :
    ∀ (es : List Media) (st : RunState) (i : String),
      i ∈ st.ids → i ∈ (runLoop r es st).ids := by
  intro es
  induction es with
  | nil => intro st i h; exact h
  | cons m es ih =>
      intro st i h
      exact ih (processEntry r m st) i (processEntry_ids_mono r m st i h)

theorem processEntry_covered (r : Media → Except String (List OpRec)) (m : Media)
    (st : RunState) (ops : List OpRec) (hr : r m = .ok ops) (op : OpRec) (hop : op ∈ ops) :
    opId m.anilistId op.number ∈ (processEntry r m st).ids := by
  simp only [processEntry, hr, stageOps]
  exact stage_covered m ops { newCards := [], ids := st.ids } op hop

theorem runLoop_covered (r : Media → Except String (List OpRec)) :
    ∀ (es : List Media) (st : RunState) (m : Media) (ops : List OpRec),
      m ∈ es → r m = .ok ops → ∀ op ∈ ops,
      opId m.anilistId op.number ∈ (runLoop r es st).ids := by
  intro es
  induction es with
  | nil => intro st m ops hm; simp at hm
  | cons m1 es ih =>
      intro st m ops hm hr op hop
      rcases List.mem_cons.1 hm with h1 | h1
      · subst h1
        exact runLoop_ids_mono r es (processEntry r m st) _
          (processEntry_covered r m st ops hr op hop)
      · exact ih (processEntry r m1 st) m ops h1 hr op hop

theorem processEntry_inv (r : Media → Except String (List OpRec)) (m : Media) (st : RunState)
    (h : ∀ i ∈ st.ids, ∃ c ∈ st.cards, c.id = i) :
    ∀ i ∈ (processEntry r m st).ids, ∃ c ∈ (processEntry r m st).cards, c.id = i := by
  cases hr : r m with
  | error e => simp only [processEntry, hr]; exact h
  | ok ops =>
      simp only [processEntry, hr, stageOps]
      intro i hi
      rcases stage_ids_src m ops { newCards := [], ids := st.ids } i hi with h1 | h1
      · rcases h i h1 with ⟨c, hc, hci⟩
        by_cases hnew : (ops.foldl (stageStep m) { newCards := [], ids := st.ids }).newCards = []
        · rw [if_pos hnew]
          exact ⟨c, hc, hci⟩
        · rw [if_neg hnew]
          exact (ids_dedupe _ i).2 ⟨c, List.mem_append_left _ hc, hci⟩
      · rcases h1 with ⟨c, hc, hci⟩
        have hne : (ops.foldl (stageStep m) { newCards := [], ids := st.ids }).newCards ≠ [] := by
          intro he
          rw [he] at hc
          simp at hc
        rw [if_neg hne]
        exact (ids_dedupe _ i).2 ⟨c, List.mem_append_right _ hc, hci⟩

theorem runLoop_inv (r : Media → Except String (List OpRec)) :
    ∀ (es : List Media) (st : RunState),
      (∀ i ∈ st.ids, ∃ c ∈ st.cards, c.id = i) →
      ∀ i ∈ (runLoop r es st).ids, ∃ c ∈ (runLoop r es st).cards, c.id = i := by
  intro es
  induction es with
  | nil => intro st h; exact h
  | cons m es ih =>
      intro st h
      exact ih (processEntry r m st) (processEntry_inv r m st h)

theorem processEntry_noop (r : Media → Except String (List OpRec)) (m : Media) (st : RunState)
    (h : ∀ ops, r m = .ok ops → ∀ op ∈ ops, opId m.anilistId op.number ∈ st.ids) :
    (processEntry r m st).cards = st.cards ∧ (processEntry r m st).ids = st.ids := by
  cases hr : r m with
  | error e => simp [processEntry, hr]
  | ok ops =>
      have hskip : ops.foldl (stageStep m) { newCards := [], ids := st.ids }
          = { newCards := [], ids := st.ids } :=
        stage_skip m ops { newCards := [], ids := st.ids } (h ops hr)
      simp [processEntry, hr, stageOps, hskip]

theorem runLoop_noop (r : Media → Except String (List OpRec)) :
    ∀ (es : List Media) (st : RunState),
      (∀ m ∈ es, ∀ ops, r m = .ok ops → ∀ op ∈ ops, opId m.anilistId op.number ∈ st.ids) →
      (runLoop r es st).cards = st.cards ∧ (runLoop r es st).ids = st.ids := by
  intro es
  induction es with
  | nil => intro st _; exact ⟨rfl, rfl⟩
  | cons m es ih =>
      intro st h
      have h0 := processEntry_noop r m st (h m (List.mem_cons_self _ _))
      have h1 := ih (processEntry r m st)
        (by
          rw [h0.2]
          intro m2 hm2
          exact h m2 (List.mem_cons_of_mem m hm2))
      refine ⟨?_, ?_⟩
      · show (runLoop r es (processEntry r m st)).cards = st.cards
        rw [h1.1, h0.1]
      · show (runLoop r es (processEntry r m st)).ids = st.ids
        rw [h1.2, h0.2]

theorem processEntry_card_src (r : Media → Except String (List OpRec)) (m : Media)
    (st : RunState) (c : Card) (h : c ∈ (processEntry r m st).cards) :
    c ∈ st.cards ∨ c.id = opId c.anilistId c.opNumber := by
  cases hr : r m with
  | error e =>
      simp only [processEntry, hr] at h
      exact Or.inl h
  | ok ops =>
      simp only [processEntry, hr, stageOps] at h
      by_cases hnew : (ops.foldl (stageStep m) { newCards := [], ids := st.ids }).newCards = []
      · rw [if_pos hnew] at h
        exact Or.inl h
      · rw [if_neg hnew] at h
        rcases List.mem_append.1 (dedupe_subset _ c h) with h1 | h1
        · exact Or.inl h1
        · rcases stage_new_src m ops _ c h1 with h2 | h2
          · simp at h2
          · rcases h2 with ⟨op, _, hco⟩
            subst hco
            exact Or.inr rfl

theorem runLoop_card_src (r : Media → Except String (List OpRec)) :
    ∀ (es : List Media) (st : RunState) (c : Card),
      c ∈ (runLoop r es st).cards →
      c ∈ st.cards ∨ c.id = opId c.anilistId c.opNumber := by
  intro es
  induction es with
  | nil => intro st c h; exact Or.inl h
  | cons m es ih =>
      intro st c h
      rcases ih (processEntry r m st) c h with h1 | h1
      · exact processEntry_card_src r m st c h1
      · exact Or.inr h1

theorem processEntry_processed (r : Media → Except String (List OpRec)) (m : Media)
    (st : RunState) :
    (processEntry r m st).progress.processedShows = st.progress.processedShows + 1 := by
  cases hr : r m with
  | error e => simp [processEntry, hr]
  | ok ops => simp [processEntry, hr]

theorem runLoop_processed (r : Media → Except String (List OpRec)) :
    ∀ (es : List Media) (st : RunState),
      (runLoop r es st).progress.processedShows
        = st.progress.processedShows + es.length := by
  intro es
  induction es with
  | nil => intro st; rfl
  | cons m es ih =>
      intro st
      show (runLoop r es (processEntry r m st)).progress.processedShows = _
      rw [ih (processEntry r m st), processEntry_processed r m st]
      simp [List.length_cons]
      omega

/-- C2 (amended): in the `buildDeckFromAniList` pipeline every card that the
run leaves in the store is either a previously stored card or carries
`id = opId catalogId sequenceNumber` (that is, `catalogId ++ "::OP" ++
(sequenceNumber or 1)`, a function of the pair alone), and re-running the
same import for the same user against an unmodified remote catalog
returns exactly the same store (hence the same size): every id the second
run would stage is already present, so nothing is added.  The
`importAnilist` pipeline of `src/src/App.jsx` instead appends the running
global episode index to the id (see the counterexample). -/
theorem import_idempotent (u : Except String Int) (lf : Int → Except String (List Media))
    (r : Media → Except String (List OpRec)) (ms : Nat) (prev cs1 : List Card) (e1 : String)
    (h : buildDeckFromAniList u lf r ms prev = .done cs1 e1) :
    (∀ c ∈ cs1, c ∈ prev ∨ c.id = opId c.anilistId c.opNumber) ∧
    buildDeckFromAniList u lf r ms cs1 = .done cs1 e1 := by
  cases u with
  | error e => simp [buildDeckFromAniList] at h
  | ok uid =>
      cases hlf : lf uid with
      | error e => simp [buildDeckFromAniList, hlf] at h
      | ok anime =>
          by_cases hlen : (anime.take (max 10 ms)).length = 0
          · simp only [buildDeckFromAniList, hlf] at h
            rw [if_pos hlen] at h
            simp at h
          · simp only [buildDeckFromAniList, hlf] at h
            rw [if_neg hlen] at h
            rw [BuildResult.done.injEq] at h
            obtain ⟨h1, h2⟩ := h
            subst h1
            subst h2
            constructor
            · intro c hc
              exact runLoop_card_src r (anime.take (max 10 ms)) _ c (dedupe_subset _ c hc)
            · have hbase : ∀ i ∈ (prev.map (fun c => c.id)), ∃ c ∈ prev, c.id = i := by
                intro i hi
                rcases List.mem_map.1 hi with ⟨c, hc, hci⟩
                exact ⟨c, hc, hci⟩
              have hcov : ∀ m ∈ (anime.take (max 10 ms)), ∀ ops, r m = .ok ops → ∀ op ∈ ops,
                  opId m.anilistId op.number ∈
                    ((dedupeById (runLoop r (anime.take (max 10 ms))
                      { cards := prev, ids := prev.map (fun c => c.id),
                        progress := { totalShows := (anime.take (max 10 ms)).length,
                                      processedShows := 0, totalOps := 0 } }).cards).map
                      (fun c => c.id)) := by
                intro m hm ops hr op hop
                have hidx := runLoop_covered r (anime.take (max 10 ms))
                  { cards := prev, ids := prev.map (fun c => c.id),
                    progress := { totalShows := (anime.take (max 10 ms)).length,
                                  processedShows := 0, totalOps := 0 } } m ops hm hr op hop
                have hinv := runLoop_inv r (anime.take (max 10 ms))
                  { cards := prev, ids := prev.map (fun c => c.id),
                    progress := { totalShows := (anime.take (max 10 ms)).length,
                                  processedShows := 0, totalOps := 0 } } hbase _ hidx
                rcases (ids_dedupe _ _).2 hinv with ⟨c2, hc2, hc2i⟩
                exact List.mem_map.2 ⟨c2, hc2, hc2i⟩
              simp only [buildDeckFromAniList, hlf]
              rw [if_neg hlen]
              have hnoop := (runLoop_noop r (anime.take (max 10 ms))
                { cards := dedupeById (runLoop r (anime.take (max 10 ms))
                    { cards := prev, ids := prev.map (fun c => c.id),
                      progress := { totalShows := (anime.take (max 10 ms)).length,
                                    processedShows := 0, totalOps := 0 } }).cards,
                  ids := (dedupeById (runLoop r (anime.take (max 10 ms))
                    { cards := prev, ids := prev.map (fun c => c.id),
                      progress := { totalShows := (anime.take (max 10 ms)).length,
                                    processedShows := 0, totalOps := 0 } }).cards).map
                    (fun c => c.id),
                  progress := { totalShows := (anime.take (max 10 ms)).length,
                                processedShows := 0, totalOps := 0 } } hcov).1
              rw [hnoop]
              dsimp only
              rw [dedupe_idem]

/-- C2 witness: a successful one-show run from the empty store yields
exactly `[card20]`, and re-running the import over the unchanged catalog
returns `[card20]` again — the store size is unchanged. -/
theorem import_idempotent_wit :
    buildDeckFromAniList (.ok 1) lfOne resolveOne 250 [card20] = .done [card20] "" := by
  have h := import_idempotent (.ok 1) lfOne resolveOne 250 [] [card20] "" (by rfl)
  exact h.2

/-- C2 counterexample: in the `importAnilist` pipeline of `src/src/App.jsx`
the generated card id is `` `${media.id}::OP${opNumber}::${globalIndex}` ``:
for a media entry with id 7 and one streaming episode the imported card's id
is "7::OP1::1", which differs from the claimed `catalogId ++ "::OP" ++
sequenceNumber` = "7::OP1" — the id depends on the running global episode
index, not on the pair (catalogId, sequenceNumber) alone. -/
theorem card_id_includes_global_index_cex :
    (genCards 0 [mediaB7]).map (fun c => c.id) = ["7::OP1::1"] ∧
    ("7::OP1::1" : String) ≠ "7::OP1" :=
  ⟨rfl, by decide⟩

/-- C1 counterexample: a card committed to the store by an earlier run is
gone after a run-level fatal error — the catch block of
`buildDeckFromAniList` executes `setCards([])`, so the collection is reset
to empty rather than left unchanged. -/
theorem fatal_error_clears_cards_cex :
    card20 ∈ [card20] ∧
    BuildResult.cardsAfter (buildDeckFromAniList (.error "AniList HTTP 500")
      (fun _ => .ok []) (fun _ => .ok []) 250 [card20]) = [] ∧
    card20 ∉ ([] : List Card) :=
  ⟨List.mem_singleton.2 rfl, rfl, by simp⟩

/-- C1 (amended): a run-level fatal error (user lookup or list fetch
throwing after exhausted retries) stops the run and is reported with the
underlying cause text, but the error handler also clears the card
collection (`setCards([])`): after the fatal, CardStore is empty, whatever
cards had been committed before. -/
theorem fatal_error_clears_cards (msg : String) (uid : Int)
    (lf : Int → Except String (List Media)) (r : Media → Except String (List OpRec))
    (ms : Nat) (prev : List Card) (hlf : lf uid = .error msg) :
    buildDeckFromAniList (.error msg) lf r ms prev = .fatal msg ∧
    BuildResult.cardsAfter (buildDeckFromAniList (.error msg) lf r ms prev) = [] ∧
    buildDeckFromAniList (.ok uid) lf r ms prev = .fatal msg ∧
    BuildResult.cardsAfter (buildDeckFromAniList (.ok uid) lf r ms prev) = [] := by
  refine ⟨rfl, rfl, ?_, ?_⟩
  · simp [buildDeckFromAniList, hlf]
  · simp [buildDeckFromAniList, hlf, BuildResult.cardsAfter]

/-- C1 witness: with one previously committed card, a failing list fetch
surfaces its cause text and leaves the empty collection. -/
theorem fatal_error_clears_cards_wit :
    buildDeckFromAniList (.ok 5) (fun _ => .error "user lookup failed") (fun _ => .ok [])
      250 [card20] = .fatal "user lookup failed" ∧
    BuildResult.cardsAfter (buildDeckFromAniList (.ok 5)
      (fun _ => .error "user lookup failed") (fun _ => .ok []) 250 [card20]) = [] := by
  have h := fatal_error_clears_cards "user lookup failed" 5
    (fun _ => .error "user lookup failed") (fun _ => .ok []) 250 [card20] rfl
  exact ⟨h.2.2.1, h.2.2.2⟩

/-- C9: when the theme resolution of one catalog entry throws, the run is
not aborted: the per-entry catch leaves the card collection and identifier
set unchanged, advances the processed-shows counter by 1, adds zero cards,
the loop continues (after a full loop the processed counter equals the
number of entries, failing ones included), and the failure is never
escalated to a run-level fatal: a run whose user lookup and list fetch
succeed on a non-empty catalog ends in the non-fatal outcome whatever the
resolver throws. -/
theorem entry_failure_isolated (r : Media → Except String (List OpRec)) (m : Media)
    (msg : String) (st : RunState) (hm : r m = .error msg)
    (uid : Int) (lf : Int → Except String (List Media)) (anime : List Media)
    (ms : Nat) (prev : List Card)
    (hlf : lf uid = .ok anime) (hne : (anime.take (max 10 ms)).length ≠ 0) :
    (processEntry r m st).cards = st.cards ∧
    (processEntry r m st).ids = st.ids ∧
    (processEntry r m st).progress.processedShows = st.progress.processedShows + 1 ∧
    (processEntry r m st).progress.totalOps = st.progress.totalOps ∧
    (buildDeckFromAniList (.ok uid) lf r ms prev).isFatal = false ∧
    (∀ (es : List Media) (s0 : RunState),
      (runLoop r es s0).progress.processedShows = s0.progress.processedShows + es.length) := by
  refine ⟨by simp [processEntry, hm], by simp [processEntry, hm],
    processEntry_processed r m st, by simp [processEntry, hm], ?_,
    fun es s0 => runLoop_processed r es s0⟩
  simp only [buildDeckFromAniList, hlf]
  rw [if_neg hne]
  rfl

/-- C9 witness: with entry 21 failing and entry 20 succeeding, processing
the failing entry leaves the store empty and advances the counter to 1; the
two-entry run ends non-fatal with both entries counted as processed. -/
theorem entry_failure_isolated_wit :
    (processEntry resolveFail21 sampleMedia2 st0sample).cards = [] ∧
    (processEntry resolveFail21 sampleMedia2 st0sample).progress.processedShows = 1 ∧
    (buildDeckFromAniList (.ok 1) lfTwo resolveFail21 250 []).isFatal = false ∧
    (runLoop resolveFail21 [sampleMedia, sampleMedia2] st0sample).progress.processedShows = 2 := by
  have h := entry_failure_isolated resolveFail21 sampleMedia2 "boom" st0sample rfl 1 lfTwo
    [sampleMedia, sampleMedia2] 250 [] rfl (by decide)
  exact ⟨h.1.trans rfl, h.2.2.1.trans rfl, h.2.2.2.2.1,
    (h.2.2.2.2.2 [sampleMedia, sampleMedia2] st0sample).trans rfl⟩
